import Mathlib

/-!
Verification of the row-selection engine in
`webui/react/src/hooks/useSelection.ts` (and its near-duplicate in
`webui/react/src/pages/FlatRuns/FlatRuns.tsx`).

The TypeScript hook is shallowly embedded below.  JavaScript `Set` objects
are modelled as insertion-ordered duplicate-free lists (`jsSetOfList`,
`jsSetInsert`, `jsSetDelete` mirror `new Set(arr)`, `set.add`, `set.delete`).
`Loadable` from hew is modelled as an option-like inductive.  Record ids are
natural numbers; sizes are integers because JavaScript subtraction can go
negative.
-/

namespace Determined

/-- hew `Loadable<T>`: a value that is either not yet loaded or loaded. -/
inductive Loadable (α : Type) where
  | notLoaded : Loadable α
  | loaded : α → Loadable α
deriving DecidableEq

/-- hew `Loadable.getOrElse(default, l)`. -/
def Loadable.getOrElse {α : Type} (l : Loadable α) (d : α) : α :=
  match l with
  | .notLoaded => d
  | .loaded a => a

/-- A record: an id plus arbitrary payload (only `id` matters to the
selection subsystem, matching the `HasId` bound in `useSelection.ts`). -/
structure Rec where
  id : Nat
  payload : Nat
deriving DecidableEq

/-- The persisted selection state, `SelectionType` from `types`:
`{type:'ONLY_IN', selections}` or `{type:'ALL_EXCEPT', exclusions}`.
The id arrays are kept as lists, as in the source. -/
inductive SelectionState where
  | ONLY_IN (selections : List Nat)
  | ALL_EXCEPT (exclusions : List Nat)
deriving DecidableEq

/-- `DEFAULT_SELECTION`: `{selections: [], type: 'ONLY_IN'}`. -/
def DEFAULT_SELECTION : SelectionState := .ONLY_IN []

/-- JavaScript `set.add(x)` on an insertion-ordered set: appends `x` if
absent, leaves the order unchanged if present. -/
def jsSetInsert (s : List Nat) (x : Nat) : List Nat :=
  if x ∈ s then s else s ++ [x]

/-- JavaScript `set.delete(x)`: removes `x`, keeping the order of the rest. -/
def jsSetDelete (s : List Nat) (x : Nat) : List Nat :=
  s.filter (fun y => y ≠ x)

/-- JavaScript `Array.from(new Set(l))`: first occurrences of `l`, in order. -/
def jsSetOfList (l : List Nat) : List Nat :=
  l.foldl jsSetInsert []

/-- hew `Loadable.filterNotLoaded(list)` with no predicate: the loaded
values, in order. -/
def filterLoaded {α : Type} : List (Loadable α) → List α
  | [] => []
  | .notLoaded :: rest => filterLoaded rest
  | .loaded a :: rest => a :: filterLoaded rest

/-- hew `Loadable.filterNotLoaded(list, p)`: the loaded values satisfying
`p`, in order. -/
def filterLoadedP {α : Type} (p : α → Bool) : List (Loadable α) → List α
  | [] => []
  | .notLoaded :: rest => filterLoadedP p rest
  | .loaded a :: rest =>
      if p a then a :: filterLoadedP p rest else filterLoadedP p rest

/-- `loadedRecordIdMap` lookup: `recordMap.get(id)` where the map was built
by `records.forEach((r, index) => Loadable.forEach(r, record =>
recordMap.set(record.id, {index, record})))` — a later record with the same
id overwrites an earlier one, so we take the last loaded occurrence. -/
def recordIdLookup (records : List (Loadable Rec)) (id : Nat) :
    Option (Nat × Rec) :=
  ((records.enum.filterMap fun p =>
      match p.2 with
      | .loaded r => some (p.1, r)
      | .notLoaded => none).reverse).find? fun e => e.2.id == id

/-- `rowRangeToIds(range)`: ids of the loaded records in
`records.slice(range[0], range[1])`, in window order. -/
def rowRangeToIds (records : List (Loadable Rec)) (range : Nat × Nat) :
    List Nat :=
  (filterLoaded ((records.drop range.1).take (range.2 - range.1))).map Rec.id

/-- Model of glide-data-grid `CompactSelection`: a list of slices.  A glide
`Slice` `[a, b]` is start-inclusive and end-exclusive, i.e. it denotes the
positions `a ≤ p < b`; `hasIndex` scans the slices with exactly that test. -/
structure CompactSelection where
  items : List (Nat × Nat)
deriving DecidableEq

/-- glide `CompactSelection.empty()`. -/
def CompactSelection.empty : CompactSelection := ⟨[]⟩

/-- glide `rows.add([a, b])`: adds the half-open slice `[a, b)`. -/
def CompactSelection.addSlice (cs : CompactSelection) (a b : Nat) :
    CompactSelection :=
  ⟨(a, b) :: cs.items⟩

/-- glide `rows.add(n)` with a single number: adds the slice `[n, n+1)`. -/
def CompactSelection.addIndex (cs : CompactSelection) (n : Nat) :
    CompactSelection :=
  cs.addSlice n (n + 1)

/-- glide `rows.remove(n)`: splits every slice containing `n` around `n`
(slices `[a, b)` with `a ≥ b` are empty and denote no position). -/
def CompactSelection.removeIndex (cs : CompactSelection) (n : Nat) :
    CompactSelection :=
  ⟨cs.items.foldr
    (fun se acc =>
      if se.1 ≤ n ∧ n < se.2 then (se.1, n) :: (n + 1, se.2) :: acc
      else se :: acc) []⟩

/-- glide `rows.hasIndex(i)`. -/
def CompactSelection.hasIndex (cs : CompactSelection) (i : Nat) : Bool :=
  cs.items.any fun se => decide (se.1 ≤ i) && decide (i < se.2)

/-- The `rows` component of `dataGridSelection`: the physical projection of
the logical selection onto window positions.  `ONLY_IN` adds the loaded
index of each selected id; `ALL_EXCEPT` adds the slice
`[0, total.getOrElse(1) - 1]` and then removes the loaded index of each
excluded id.  (In the source, `total` loaded as `0` gives the JavaScript
slice `[0, -1]`, which denotes no position, exactly as `[0, 0]` does here
under truncated subtraction.) -/
def dataGridSelectionRows (records : List (Loadable Rec))
    (sel : SelectionState) (total : Loadable Nat) : CompactSelection :=
  match sel with
  | .ONLY_IN selections =>
      selections.foldl
        (fun rows id =>
          match recordIdLookup records id with
          | some e => rows.addIndex e.1
          | none => rows)
        .empty
  | .ALL_EXCEPT exclusions =>
      exclusions.foldl
        (fun rows exc =>
          match recordIdLookup records exc with
          | some e => rows.removeIndex e.1
          | none => rows)
        (CompactSelection.empty.addSlice 0 (total.getOrElse 1 - 1))

/-- `selectionSize`: `selections.length` for `ONLY_IN`,
`total.getOrElse(0) - exclusions.length` for `ALL_EXCEPT`.  An integer,
since the JavaScript subtraction can be negative. -/
def selectionSize (sel : SelectionState) (total : Loadable Nat) : Int :=
  match sel with
  | .ONLY_IN selections => (selections.length : Int)
  | .ALL_EXCEPT exclusions =>
      (total.getOrElse 0 : Int) - (exclusions.length : Int)

/-- `selectedRecordIdSet` as an insertion-ordered set: for `ONLY_IN`,
`new Set(selections)`; for `ALL_EXCEPT`, the ids of the loaded records
whose id is not excluded. -/
def selectedRecordIdSet (records : List (Loadable Rec))
    (sel : SelectionState) : List Nat :=
  match sel with
  | .ONLY_IN selections => jsSetOfList selections
  | .ALL_EXCEPT exclusions =>
      jsSetOfList
        ((filterLoadedP (fun r => !exclusions.contains r.id) records).map
          Rec.id)

/-- `loadedSelectedRecords`: the loaded records whose id is in
`selectedRecordIdSet`, in window order. -/
def loadedSelectedRecords (records : List (Loadable Rec))
    (sel : SelectionState) : List Rec :=
  filterLoadedP (fun r => (selectedRecordIdSet records sel).contains r.id)
    records

/-- `isRangeSelected(range)`: every id resolvable in the range is selected
(`ONLY_IN`: in `selections`; `ALL_EXCEPT`: not in `exclusions`). -/
def isRangeSelected (records : List (Loadable Rec)) (sel : SelectionState)
    (range : Nat × Nat) : Bool :=
  match sel with
  | .ONLY_IN selections =>
      (rowRangeToIds records range).all fun id => selections.contains id
  | .ALL_EXCEPT exclusions =>
      (rowRangeToIds records range).all fun id => !exclusions.contains id

/-- The selection event kinds of `HandleSelectionChangeType`:
`'add' | 'add-all' | 'remove' | 'remove-all' | 'set'`. -/
inductive SelOp where
  | add | addAll | remove | removeAll | set
deriving DecidableEq

/-- `handleSelectionChange(selectionType, range?)` as a state transformer:
returns `none` when the handler early-returns without calling
`updateSettings` (a required range is absent), and `some s` when it calls
`updateSettings({selection: s})`. -/
def handleSelectionChange (records : List (Loadable Rec))
    (sel : SelectionState) (op : SelOp) (range : Option (Nat × Nat)) :
    Option SelectionState :=
  match op, range with
  | .add, none => none
  | .add, some r =>
      match sel with
      | .ALL_EXCEPT exclusions =>
          some (.ALL_EXCEPT
            ((rowRangeToIds records r).foldl jsSetDelete
              (jsSetOfList exclusions)))
      | .ONLY_IN selections =>
          some (.ONLY_IN
            ((rowRangeToIds records r).foldl jsSetInsert
              (jsSetOfList selections)))
  | .addAll, _ => some (.ALL_EXCEPT [])
  | .remove, none => none
  | .remove, some r =>
      match sel with
      | .ALL_EXCEPT exclusions =>
          some (.ALL_EXCEPT
            ((rowRangeToIds records r).foldl jsSetInsert
              (jsSetOfList exclusions)))
      | .ONLY_IN selections =>
          some (.ONLY_IN
            ((rowRangeToIds records r).foldl jsSetDelete
              (jsSetOfList selections)))
  | .removeAll, _ => some DEFAULT_SELECTION
  | .set, none => none
  | .set, some r => some (.ONLY_IN (rowRangeToIds records r))


/-- Well-formedness of a persisted selection state: the stored id array has
no duplicates.  Every state produced by `handleSelectionChange` satisfies
this (its arrays come from `Array.from(new Set(...))` or are empty). -/
def SelectionStateWF : SelectionState → Prop
  | .ONLY_IN selections => selections.Nodup
  | .ALL_EXCEPT exclusions => exclusions.Nodup

instance : DecidablePred SelectionStateWF := fun sel =>
  match sel with
  | .ONLY_IN selections => inferInstanceAs (Decidable selections.Nodup)
  | .ALL_EXCEPT exclusions => inferInstanceAs (Decidable exclusions.Nodup)

/-- The five-record window of the spec's concrete scenarios: ids
`[10,11,12,13,14]` loaded at positions `0..4`. -/
def records5 : List (Loadable Rec) :=
  [.loaded ⟨10, 0⟩, .loaded ⟨11, 0⟩, .loaded ⟨12, 0⟩, .loaded ⟨13, 0⟩,
    .loaded ⟨14, 0⟩]

/-- The number of explicitly tracked ids in a selection state. -/
def trackedIdCount : SelectionState → Nat
  | .ONLY_IN selections => selections.length
  | .ALL_EXCEPT exclusions => exclusions.length

/-- Effective-selection membership, written from the spec's words: for
`Inclusion{ids}` an id is selected iff it is in `ids`; for
`Exclusion{ids}` iff it is not in `ids`. -/
def specSelectedMember (sel : SelectionState) (id : Nat) : Bool :=
  match sel with
  | .ONLY_IN selections => selections.contains id
  | .ALL_EXCEPT exclusions => !exclusions.contains id

/-- Modelled from the spec: the settings collaborator of §6.  The
`FlatRunsSettings` codec and `userSettings.setPartial` are declared outside
the shown sources; per the spec the collaborator persists the selection
alongside the view's other table settings (columns, column widths, sort
string, page limit, filters). -/
structure Settings where
  selection : SelectionState
  columns : List String
  columnWidths : List (String × Nat)
  sortString : String
  pageLimit : Nat
  filterset : String
deriving DecidableEq

/-- Modelled from the spec: a partial settings record as passed to
`updateSettings`; a `none` field is absent from the update object. -/
structure SettingsPatch where
  selection : Option SelectionState
  columns : Option (List String)
  columnWidths : Option (List (String × Nat))
  sortString : Option String
  pageLimit : Option Nat
  filterset : Option String
deriving DecidableEq

/-- The update object `{selection: ns}`: a patch holding only the
`selection` key. -/
def selectionOnlyPatch (ns : SelectionState) : SettingsPatch :=
  ⟨some ns, none, none, none, none, none⟩

/-- Modelled from the spec: `userSettings.setPartial` merges a partial
record field-wise — fields present in the patch replace the stored value,
absent fields are left unchanged. -/
def applyPatch (s : Settings) (p : SettingsPatch) : Settings :=
  ⟨p.selection.getD s.selection, p.columns.getD s.columns,
    p.columnWidths.getD s.columnWidths, p.sortString.getD s.sortString,
    p.pageLimit.getD s.pageLimit, p.filterset.getD s.filterset⟩

/-- `handleSelectionChange` seen at the `updateSettings` boundary: the
patch it passes (`updateSettings({selection: newSettings})`), or `none`
when it early-returns without updating. -/
def handleSelectionChangePatch (records : List (Loadable Rec))
    (sel : SelectionState) (op : SelOp) (range : Option (Nat × Nat)) :
    Option SettingsPatch :=
  (handleSelectionChange records sel op range).map selectionOnlyPatch

/-- A concrete settings record for the C10 witness. -/
def sampleSettings : Settings :=
  ⟨DEFAULT_SELECTION, ["id"], [("id", 100)], "id=asc", 20, "f"⟩

theorem mem_jsSetInsert {s : List Nat} {a x : Nat} :
    x ∈ jsSetInsert s a ↔ x ∈ s ∨ x = a := by
  unfold jsSetInsert
  split
  · next h => constructor
              · exact Or.inl
              · rintro (hx | rfl) <;> [exact hx; exact h]
  · simp

theorem jsSetInsert_of_mem {s : List Nat} {a : Nat} (h : a ∈ s) :
    jsSetInsert s a = s := by
  simp [jsSetInsert, h]

theorem nodup_jsSetInsert {s : List Nat} (h : s.Nodup) (a : Nat) :
    (jsSetInsert s a).Nodup := by
  unfold jsSetInsert
  split
  · exact h
  · next hna => simp [List.nodup_append, h, hna]

theorem mem_jsSetDelete {s : List Nat} {a x : Nat} :
    x ∈ jsSetDelete s a ↔ x ∈ s ∧ x ≠ a := by
  simp [jsSetDelete, List.mem_filter]

theorem jsSetDelete_of_not_mem {s : List Nat} {a : Nat} (h : a ∉ s) :
    jsSetDelete s a = s := by
  unfold jsSetDelete
  apply List.filter_eq_self.mpr
  intro x hx
  simp only [decide_eq_true_eq]
  rintro rfl
  exact h hx

theorem nodup_jsSetDelete {s : List Nat} (h : s.Nodup) (a : Nat) :
    (jsSetDelete s a).Nodup :=
  h.filter _

theorem mem_foldl_jsSetInsert {ids : List Nat} {s : List Nat} {x : Nat} :
    x ∈ ids.foldl jsSetInsert s ↔ x ∈ s ∨ x ∈ ids := by
  induction ids generalizing s with
  | nil => simp
  | cons a rest ih =>
      simp only [List.foldl_cons, ih, mem_jsSetInsert, List.mem_cons]
      tauto

theorem nodup_foldl_jsSetInsert {ids : List Nat} {s : List Nat}
    (h : s.Nodup) : (ids.foldl jsSetInsert s).Nodup := by
  induction ids generalizing s with
  | nil => exact h
  | cons a rest ih => exact ih (nodup_jsSetInsert h a)

theorem foldl_jsSetInsert_of_subset {ids : List Nat} {s : List Nat}
    (h : ∀ i ∈ ids, i ∈ s) : ids.foldl jsSetInsert s = s := by
  induction ids with
  | nil => rfl
  | cons a rest ih =>
      rw [List.foldl_cons, jsSetInsert_of_mem (h a (List.mem_cons_self a rest))]
      exact ih fun i hi => h i (List.mem_cons_of_mem a hi)

theorem mem_foldl_jsSetDelete {ids : List Nat} {s : List Nat} {x : Nat} :
    x ∈ ids.foldl jsSetDelete s ↔ x ∈ s ∧ x ∉ ids := by
  induction ids generalizing s with
  | nil => simp
  | cons a rest ih =>
      simp only [List.foldl_cons, ih, mem_jsSetDelete, List.mem_cons]
      tauto

theorem nodup_foldl_jsSetDelete {ids : List Nat} {s : List Nat}
    (h : s.Nodup) : (ids.foldl jsSetDelete s).Nodup := by
  induction ids generalizing s with
  | nil => exact h
  | cons a rest ih => exact ih (nodup_jsSetDelete h a)

theorem foldl_jsSetDelete_of_disjoint {ids : List Nat} {s : List Nat}
    (h : ∀ i ∈ ids, i ∉ s) : ids.foldl jsSetDelete s = s := by
  induction ids with
  | nil => rfl
  | cons a rest ih =>
      rw [List.foldl_cons, jsSetDelete_of_not_mem (h a (List.mem_cons_self a rest))]
      exact ih fun i hi => h i (List.mem_cons_of_mem a hi)

theorem foldl_jsSetInsert_append {ids : List Nat} {s : List Nat}
    (h : (s ++ ids).Nodup) : ids.foldl jsSetInsert s = s ++ ids := by
  induction ids generalizing s with
  | nil => simp
  | cons a rest ih =>
      rw [List.foldl_cons]
      have hna : a ∉ s := by
        intro hmem
        exact (List.disjoint_of_nodup_append h) hmem (List.mem_cons_self a rest)
      rw [jsSetInsert, if_neg hna]
      have h' : (s ++ [a] ++ rest).Nodup := by
        simpa [List.append_assoc] using h
      simpa [List.append_assoc] using ih h'

theorem mem_jsSetOfList {l : List Nat} {x : Nat} :
    x ∈ jsSetOfList l ↔ x ∈ l := by
  simp [jsSetOfList, mem_foldl_jsSetInsert]

theorem nodup_jsSetOfList (l : List Nat) : (jsSetOfList l).Nodup :=
  nodup_foldl_jsSetInsert List.nodup_nil

theorem jsSetOfList_of_nodup {l : List Nat} (h : l.Nodup) :
    jsSetOfList l = l := by
  simpa using foldl_jsSetInsert_append (s := []) (by simpa using h)

/-- C7: add and remove are idempotent. -/
theorem add_remove_idempotent (records : List (Loadable Rec))
    (sel : SelectionState) (r : Nat × Nat) :
    ((handleSelectionChange records sel .add (some r)).bind fun s =>
        handleSelectionChange records s .add (some r)) =
      handleSelectionChange records sel .add (some r) ∧
    ((handleSelectionChange records sel .remove (some r)).bind fun s =>
        handleSelectionChange records s .remove (some r)) =
      handleSelectionChange records sel .remove (some r) := by
  cases sel with
  | ONLY_IN selections =>
      constructor
      · simp only [handleSelectionChange, Option.some_bind]
        congr 1
        have hnd : ((rowRangeToIds records r).foldl jsSetInsert
            (jsSetOfList selections)).Nodup :=
          nodup_foldl_jsSetInsert (nodup_jsSetOfList selections)
        rw [jsSetOfList_of_nodup hnd]
        exact congrArg _ (foldl_jsSetInsert_of_subset fun i hi =>
          mem_foldl_jsSetInsert.mpr (Or.inr hi))
      · simp only [handleSelectionChange, Option.some_bind]
        congr 1
        have hnd : ((rowRangeToIds records r).foldl jsSetDelete
            (jsSetOfList selections)).Nodup :=
          nodup_foldl_jsSetDelete (nodup_jsSetOfList selections)
        rw [jsSetOfList_of_nodup hnd]
        exact congrArg _ (foldl_jsSetDelete_of_disjoint fun i hi hmem =>
          (mem_foldl_jsSetDelete.mp hmem).2 hi)
  | ALL_EXCEPT exclusions =>
      constructor
      · simp only [handleSelectionChange, Option.some_bind]
        congr 1
        have hnd : ((rowRangeToIds records r).foldl jsSetDelete
            (jsSetOfList exclusions)).Nodup :=
          nodup_foldl_jsSetDelete (nodup_jsSetOfList exclusions)
        rw [jsSetOfList_of_nodup hnd]
        exact congrArg _ (foldl_jsSetDelete_of_disjoint fun i hi hmem =>
          (mem_foldl_jsSetDelete.mp hmem).2 hi)
      · simp only [handleSelectionChange, Option.some_bind]
        congr 1
        have hnd : ((rowRangeToIds records r).foldl jsSetInsert
            (jsSetOfList exclusions)).Nodup :=
          nodup_foldl_jsSetInsert (nodup_jsSetOfList exclusions)
        rw [jsSetOfList_of_nodup hnd]
        exact congrArg _ (foldl_jsSetInsert_of_subset fun i hi =>
          mem_foldl_jsSetInsert.mpr (Or.inr hi))

/-- Claim C2, counterexample: `set` over a range with no resolvable ids is
not a no-op — with an empty window and prior state `ALL_EXCEPT{}`, the
resulting state is the empty `ONLY_IN`, not the prior state. -/
theorem set_emptyRange_clears_cex :
    handleSelectionChange [] (.ALL_EXCEPT []) .set (some (0, 1)) ≠
      some (.ALL_EXCEPT []) ∧
    rowRangeToIds [] (0, 1) = [] ∧
    handleSelectionChange [] (.ALL_EXCEPT []) .set (some (0, 1)) =
      some (.ONLY_IN []) := by decide

/-- Claim C2, amended: over a range with no resolvable ids, `add` and
`remove` are no-ops on a well-formed state and do not error, while `set`
does not error but replaces the state with the empty Inclusion. -/
theorem emptyRange_mutations (records : List (Loadable Rec))
    (sel : SelectionState) (range : Nat × Nat)
    (hwf : SelectionStateWF sel)
    (h : rowRangeToIds records range = []) :
    handleSelectionChange records sel .add (some range) = some sel ∧
    handleSelectionChange records sel .remove (some range) = some sel ∧
    handleSelectionChange records sel .set (some range) =
      some (.ONLY_IN []) := by
  cases sel with
  | ONLY_IN selections =>
      refine ⟨?_, ?_, ?_⟩ <;>
        simp [handleSelectionChange, h, jsSetOfList_of_nodup hwf]
  | ALL_EXCEPT exclusions =>
      refine ⟨?_, ?_, ?_⟩ <;>
        simp [handleSelectionChange, h, jsSetOfList_of_nodup hwf]

/-- Claim C2, witness: a pending-only window, state `ALL_EXCEPT{3}` and
range `[0,1)`. -/
theorem emptyRange_mutations_witness :
    handleSelectionChange [Loadable.notLoaded] (.ALL_EXCEPT [3]) .add
        (some (0, 1)) = some (.ALL_EXCEPT [3]) ∧
    handleSelectionChange [Loadable.notLoaded] (.ALL_EXCEPT [3]) .remove
        (some (0, 1)) = some (.ALL_EXCEPT [3]) ∧
    handleSelectionChange [Loadable.notLoaded] (.ALL_EXCEPT [3]) .set
        (some (0, 1)) = some (.ONLY_IN []) :=
  emptyRange_mutations [Loadable.notLoaded] (.ALL_EXCEPT [3]) (0, 1)
    (by decide) (by decide)

/-- Claim C3, counterexample: with known total `N = 1` and two exclusions,
the reported size is `-1`, not the claimed `max(0, N - |ids|) = 0`. -/
theorem exclusionSize_not_clamped_cex :
    selectionSize (.ALL_EXCEPT [5, 6]) (.loaded 1) = -1 ∧
    selectionSize (.ALL_EXCEPT [5, 6]) (.loaded 1) ≠
      max 0 ((1 : Int) - 2) := by decide

/-- Claim C3, amended: `size(Inclusion{ids}) = |ids|`, and with known total
`N`, `size(Exclusion{ids}) = N - |ids|` as a plain (possibly negative)
integer — there is no clamping at 0. -/
theorem selectionSize_formula (selections exclusions : List Nat)
    (total : Loadable Nat) (N : Nat) :
    selectionSize (.ONLY_IN selections) total = (selections.length : Int) ∧
    selectionSize (.ALL_EXCEPT exclusions) (.loaded N) =
      (N : Int) - (exclusions.length : Int) :=
  ⟨rfl, rfl⟩

/-- Claim C5, counterexample: with known total `N = 0` and state
`ONLY_IN{5}`, the reported size is `1`, violating `size(S) ≤ N`. -/
theorem selectionSize_bounds_cex :
    ¬(0 ≤ selectionSize (.ONLY_IN [5]) (.loaded 0) ∧
      selectionSize (.ONLY_IN [5]) (.loaded 0) ≤ (0 : Int)) := by decide

/-- Claim C5, amended: when the tracked id list has at most `N` entries,
`0 ≤ size(S) ≤ N` holds for known total `N`. -/
theorem selectionSize_bounds (sel : SelectionState) (N : Nat)
    (h : trackedIdCount sel ≤ N) :
    0 ≤ selectionSize sel (.loaded N) ∧
      selectionSize sel (.loaded N) ≤ (N : Int) := by
  cases sel <;>
    simp only [selectionSize, trackedIdCount, Loadable.getOrElse] at * <;>
    omega

/-- Claim C5, witness: `ONLY_IN{4}` with total `2`. -/
theorem selectionSize_bounds_witness :
    trackedIdCount (.ONLY_IN [4]) ≤ 2 ∧
    (0 ≤ selectionSize (.ONLY_IN [4]) (.loaded 2) ∧
      selectionSize (.ONLY_IN [4]) (.loaded 2) ≤ (2 : Int)) :=
  ⟨by decide, selectionSize_bounds (.ONLY_IN [4]) 2 (by decide)⟩

/-- Claim C6: scenario B — window ids `[10..14]` at positions `0..4`,
`N = 5`; `add-all` yields `ALL_EXCEPT{}` of size 5, then `remove([1,2))`
yields `ALL_EXCEPT{11}` of size 4 with `isRangeSelected([0,1)) = true`
and `isRangeSelected([1,2)) = false`. -/
theorem scenarioB :
    handleSelectionChange records5 DEFAULT_SELECTION .addAll none =
      some (.ALL_EXCEPT []) ∧
    selectionSize (.ALL_EXCEPT []) (.loaded 5) = 5 ∧
    handleSelectionChange records5 (.ALL_EXCEPT []) .remove (some (1, 2)) =
      some (.ALL_EXCEPT [11]) ∧
    selectionSize (.ALL_EXCEPT [11]) (.loaded 5) = 4 ∧
    isRangeSelected records5 (.ALL_EXCEPT [11]) (0, 1) = true ∧
    isRangeSelected records5 (.ALL_EXCEPT [11]) (1, 2) = false := by decide

/-- Claim C9: with the total not yet loaded, the `ALL_EXCEPT` size is
`0 - k` where `k` is the number of exclusions — negative for every
`k > 0`. -/
theorem unknownTotal_exclusion_size_negative (exclusions : List Nat)
    (h : 0 < exclusions.length) :
    selectionSize (.ALL_EXCEPT exclusions) .notLoaded =
      0 - (exclusions.length : Int) ∧
    selectionSize (.ALL_EXCEPT exclusions) .notLoaded < 0 := by
  simp only [selectionSize, Loadable.getOrElse]
  omega

/-- Claim C9, witness: a single exclusion with the total unknown. -/
theorem unknownTotal_exclusion_size_negative_witness :
    0 < [7].length ∧
    (selectionSize (.ALL_EXCEPT [7]) .notLoaded = 0 - ([7].length : Int) ∧
      selectionSize (.ALL_EXCEPT [7]) .notLoaded < 0) :=
  ⟨by decide, unknownTotal_exclusion_size_negative [7] (by decide)⟩

/-- Claim C1 (code bug): for `ALL_EXCEPT{}` with known total `N`, the
physical projection is the half-open glide slice `[0, N-1)`, so position
`N - 1` is never selected in it — even though `selectionSize` reports `N`
rows selected.  Shown generally and on the five-record window. -/
theorem allExcept_projection_misses_last_row :
    (∀ (records : List (Loadable Rec)) (N : Nat),
      (dataGridSelectionRows records (.ALL_EXCEPT []) (.loaded N)).hasIndex
        (N - 1) = false) ∧
    (dataGridSelectionRows records5 (.ALL_EXCEPT []) (.loaded 5)).hasIndex 4 =
      false ∧
    ((dataGridSelectionRows records5 (.ALL_EXCEPT []) (.loaded 5)).hasIndex 0 =
        true ∧
      (dataGridSelectionRows records5 (.ALL_EXCEPT []) (.loaded 5)).hasIndex 3 =
        true) ∧
    selectionSize (.ALL_EXCEPT []) (.loaded 5) = 5 := by
  refine ⟨fun records N => ?_, by decide, by decide, by decide⟩
  simp [dataGridSelectionRows, CompactSelection.empty,
    CompactSelection.addSlice, CompactSelection.hasIndex, Loadable.getOrElse]

/-- Claim C4 (code bug): a window with the single record id `10` loaded at
position `0`, total `1`, state `ALL_EXCEPT{}`; the range `[0,1)` lies
entirely in the loaded portion and `isRangeSelected` reports it selected,
yet position `0` is absent from the physical projection. -/
theorem projection_readback_mismatch :
    isRangeSelected [.loaded ⟨10, 0⟩] (.ALL_EXCEPT []) (0, 1) = true ∧
    (dataGridSelectionRows [.loaded ⟨10, 0⟩] (.ALL_EXCEPT [])
        (.loaded 1)).hasIndex 0 = false := by decide

theorem contains_eq_decide_mem (l : List Nat) (x : Nat) :
    l.contains x = decide (x ∈ l) := by
  cases h : decide (x ∈ l) <;> simp_all

theorem filterLoadedP_eq_filter {α : Type} (p : α → Bool)
    (l : List (Loadable α)) :
    filterLoadedP p l = (filterLoaded l).filter p := by
  induction l with
  | nil => rfl
  | cons hd tl ih =>
      cases hd with
      | notLoaded => simpa [filterLoadedP, filterLoaded] using ih
      | loaded a =>
          by_cases hp : p a <;>
            simp [filterLoadedP, filterLoaded, List.filter_cons, hp, ih]

/-- Claim C8: `loadedSelectedRecords` is exactly the filter of the loaded
records, in window order, by effective-selection membership. -/
theorem loadedSelectedRecords_spec (records : List (Loadable Rec))
    (sel : SelectionState) :
    loadedSelectedRecords records sel =
      (filterLoaded records).filter fun r => specSelectedMember sel r.id := by
  unfold loadedSelectedRecords
  rw [filterLoadedP_eq_filter]
  apply List.filter_congr
  intro r hr
  cases sel with
  | ONLY_IN selections =>
      rw [Bool.eq_iff_iff]
      simp only [selectedRecordIdSet, specSelectedMember,
        contains_eq_decide_mem, decide_eq_true_eq]
      rw [mem_jsSetOfList]
  | ALL_EXCEPT exclusions =>
      rw [Bool.eq_iff_iff]
      simp only [selectedRecordIdSet, specSelectedMember,
        contains_eq_decide_mem, decide_eq_true_eq, Bool.not_eq_true',
        decide_eq_false_iff_not]
      rw [mem_jsSetOfList]
      simp only [List.mem_map, filterLoadedP_eq_filter, List.mem_filter,
        Bool.not_eq_true', decide_eq_false_iff_not]
      constructor
      · rintro ⟨y, ⟨-, hy⟩, hid⟩
        exact hid ▸ hy
      · intro hx
        exact ⟨r, ⟨hr, hx⟩, rfl⟩

/-- Claim C10: every committing selection mutation passes a patch holding
only the `selection` key, and applying it leaves every other persisted
settings field unchanged. -/
theorem selection_mutation_frame (s : Settings)
    (records : List (Loadable Rec)) (op : SelOp)
    (range : Option (Nat × Nat)) (p : SettingsPatch)
    (h : handleSelectionChangePatch records s.selection op range = some p) :
    (∃ ns, p = selectionOnlyPatch ns) ∧
    (applyPatch s p).columns = s.columns ∧
    (applyPatch s p).columnWidths = s.columnWidths ∧
    (applyPatch s p).sortString = s.sortString ∧
    (applyPatch s p).pageLimit = s.pageLimit ∧
    (applyPatch s p).filterset = s.filterset := by
  have hp : ∃ ns, p = selectionOnlyPatch ns := by
    unfold handleSelectionChangePatch at h
    cases hsc : handleSelectionChange records s.selection op range with
    | none => rw [hsc] at h; exact absurd h (by simp)
    | some ns => rw [hsc] at h; exact ⟨ns, by simpa using h.symm⟩
  obtain ⟨ns, rfl⟩ := hp
  exact ⟨⟨ns, rfl⟩, rfl, rfl, rfl, rfl, rfl⟩

/-- Claim C10, witness: `add-all` on the five-record window against
`sampleSettings`. -/
theorem selection_mutation_frame_witness :
    (∃ ns, selectionOnlyPatch (SelectionState.ALL_EXCEPT []) =
      selectionOnlyPatch ns) ∧
    (applyPatch sampleSettings
        (selectionOnlyPatch (SelectionState.ALL_EXCEPT []))).columns =
      sampleSettings.columns ∧
    (applyPatch sampleSettings
        (selectionOnlyPatch (SelectionState.ALL_EXCEPT []))).columnWidths =
      sampleSettings.columnWidths ∧
    (applyPatch sampleSettings
        (selectionOnlyPatch (SelectionState.ALL_EXCEPT []))).sortString =
      sampleSettings.sortString ∧
    (applyPatch sampleSettings
        (selectionOnlyPatch (SelectionState.ALL_EXCEPT []))).pageLimit =
      sampleSettings.pageLimit ∧
    (applyPatch sampleSettings
        (selectionOnlyPatch (SelectionState.ALL_EXCEPT []))).filterset =
      sampleSettings.filterset :=
  selection_mutation_frame sampleSettings records5 .addAll none
    (selectionOnlyPatch (SelectionState.ALL_EXCEPT [])) rfl

end Determined
